import Mathlib

/-!
# Verification of the rusty-duplication frame-duplication pipeline

Shallow embedding of the desktop-duplication library's pure logic:
geometry / buffer-size computation (`ext.rs`, `utils.rs`), the derived
`FrameInfo` booleans, the acquire / release frame protocol
(`monitor.rs`, `duplication_context.rs`), the pitch-aware pixel copy
(`capturer.rs`, `monitor.rs`), the pointer-shape scratch-buffer resize
logic, and the double-buffered pointer-shape state machines of the
shared / simple capturers (`capturer/shared.rs`, `capturer/simple.rs`).

External OS / GPU calls (AcquireNextFrame, GetFramePointerShape,
ReleaseFrame, Map, Unmap, the shared-memory APIs) are modelled by an
oracle record supplying each call's outcome; the library code that
routes those outcomes is translated faithfully from the source.
-/

/-- Outcome of a raw Windows API call: the HRESULT carried by
`windows::core::Error`; we only need it as an abstract payload. -/
structure WinError where
  code : Nat
  deriving Repr, DecidableEq

/-- `error.rs` `enum Error`: `InvalidBufferLength`, or a Windows error
tagged with the name of the failing API (`Error::Windows { api, err }`).
The historical `model.rs` error type also carries an API-name message;
both are represented by the `Windows` constructor. -/
inductive DuplError where
  | InvalidBufferLength
  | Windows (api : String) (err : WinError)
  deriving Repr, DecidableEq

/-- `DXGI_MODE_DESC` as used by the library: `Width`, `Height` (u32 values). -/
structure ModeDesc where
  Width : Nat
  Height : Nat
  deriving Repr, DecidableEq

/-- `DXGI_OUTDUPL_DESC`, restricted to the `ModeDesc` field the library reads. -/
structure OutDuplDesc where
  ModeDesc : ModeDesc
  deriving Repr, DecidableEq

/-- `ext.rs` / `utils.rs` `OutDuplDescExt::calc_buffer_size`:
`(self.ModeDesc.Width * self.ModeDesc.Height * 4) as usize`.
The multiplications are u32 arithmetic, hence the `% 2^32` after each
step (release-mode wrapping); the `as usize` cast on a 64-bit target
preserves the u32 value. -/
def calc_buffer_size (d : OutDuplDesc) : Nat :=
  (d.ModeDesc.Width * d.ModeDesc.Height % 4294967296) * 4 % 4294967296

/-- A duplication descriptor is valid when both mode dimensions are
positive and within the D3D11 texture dimension limit (16384), which is
what the duplication service can ever report for an output mode. -/
def ValidDuplDesc (d : OutDuplDesc) : Prop :=
  0 < d.ModeDesc.Width ∧ 0 < d.ModeDesc.Height ∧
    d.ModeDesc.Width ≤ 16384 ∧ d.ModeDesc.Height ≤ 16384

instance (d : OutDuplDesc) : Decidable (ValidDuplDesc d) := by
  unfold ValidDuplDesc
  infer_instance

/-- `DXGI_OUTDUPL_FRAME_INFO`, restricted to the fields the library reads:
`LastPresentTime : i64`, `LastMouseUpdateTime : i64` (LARGE_INTEGER),
`PointerShapeBufferSize : u32`. -/
structure FrameInfo where
  LastPresentTime : Int
  LastMouseUpdateTime : Int
  PointerShapeBufferSize : Nat
  deriving Repr, DecidableEq

/-- `model.rs` `MouseUpdateStatus` (returned by the `ext.rs` flavour of
`FrameInfoExt::mouse_updated`). -/
structure MouseUpdateStatus where
  position_updated : Bool
  shape_updated : Bool
  deriving Repr, DecidableEq

/-- `ext.rs` / `utils.rs` `FrameInfoExt::desktop_updated`:
`self.LastPresentTime > 0`. -/
def desktop_updated (fi : FrameInfo) : Bool :=
  decide (0 < fi.LastPresentTime)

/-- `ext.rs` `FrameInfoExt::mouse_updated`: when `LastMouseUpdateTime > 0`,
position is updated and the shape is updated iff
`PointerShapeBufferSize > 0`; otherwise neither. -/
def mouse_updated (fi : FrameInfo) : MouseUpdateStatus :=
  if 0 < fi.LastMouseUpdateTime then
    { position_updated := true
      shape_updated := decide (0 < fi.PointerShapeBufferSize) }
  else
    { position_updated := false, shape_updated := false }

/-- `utils.rs` `FrameInfoExt::mouse_updated` (the boolean flavour used by
`capturer/shared.rs` and `capturer/custom.rs`):
`self.LastMouseUpdateTime > 0`. -/
def mouse_updated_bool (fi : FrameInfo) : Bool :=
  decide (0 < fi.LastMouseUpdateTime)

/-- The shape-fetch gate of `DuplicationContext::next_frame_with_pointer_shape`:
`frame_info.mouse_updated().shape_updated`. -/
def dc_shape_gate (fi : FrameInfo) : Bool :=
  (mouse_updated fi).shape_updated

/-- C6: for every valid duplication descriptor, `calc_buffer_size` returns
exactly `width * height * 4` bytes. -/
theorem calc_buffer_size_eq (d : OutDuplDesc) (h : ValidDuplDesc d) :
    calc_buffer_size d = d.ModeDesc.Width * d.ModeDesc.Height * 4 := by
  obtain ⟨-, -, hw, hh⟩ := h
  have hwh : d.ModeDesc.Width * d.ModeDesc.Height ≤ 16384 * 16384 :=
    Nat.mul_le_mul hw hh
  have h1 : d.ModeDesc.Width * d.ModeDesc.Height < 4294967296 := by omega
  have h2 : d.ModeDesc.Width * d.ModeDesc.Height * 4 < 4294967296 := by omega
  unfold calc_buffer_size
  rw [Nat.mod_eq_of_lt h1, Nat.mod_eq_of_lt h2]

/-- C6 witness: a 1920×1080 output needs exactly 8294400 bytes. -/
theorem calc_buffer_size_eq_witness :
    ValidDuplDesc ⟨⟨1920, 1080⟩⟩ ∧ calc_buffer_size ⟨⟨1920, 1080⟩⟩ = 8294400 := by
  refine ⟨by decide, ?_⟩
  have h := calc_buffer_size_eq ⟨⟨1920, 1080⟩⟩ (by decide)
  simpa using h

/-- C7 counterexample: the claim says `desktop_updated` is true iff the
last-present timestamp is nonzero, but the code tests `> 0` on a signed
64-bit field: a directly constructed `FrameInfo` with
`LastPresentTime = -1` has a nonzero timestamp yet
`desktop_updated = false` (and likewise for the mouse timestamp). -/
theorem frame_info_nonzero_claim_false :
    desktop_updated ⟨-1, -1, 0⟩ = false ∧ (-1 : Int) ≠ 0 ∧
      (mouse_updated ⟨-1, -1, 0⟩).position_updated = false := by
  refine ⟨by decide, by decide, by decide⟩

/-- C7 (amended): for every directly constructed `FrameInfo`,
`desktop_updated` is true iff the last-present timestamp is positive,
`mouse_updated.position_updated` iff the last-mouse-update timestamp is
positive, and `mouse_updated.shape_updated` iff additionally the
pointer-shape-buffer-size field is greater than 0. -/
theorem frame_info_derived_booleans (fi : FrameInfo) :
    (desktop_updated fi = true ↔ 0 < fi.LastPresentTime) ∧
      ((mouse_updated fi).position_updated = true ↔ 0 < fi.LastMouseUpdateTime) ∧
      ((mouse_updated fi).shape_updated = true ↔
        0 < fi.LastMouseUpdateTime ∧ 0 < fi.PointerShapeBufferSize) := by
  refine ⟨by simp [desktop_updated], ?_, ?_⟩
  · unfold mouse_updated
    by_cases h : 0 < fi.LastMouseUpdateTime <;> simp [h]
  · unfold mouse_updated
    by_cases h : 0 < fi.LastMouseUpdateTime <;> simp [h]

/-- `DXGI_OUTDUPL_POINTER_SHAPE_INFO`: the metadata the library forwards
unchanged (type, size, pitch, hotspot). -/
structure PointerShapeInfo where
  shapeType : Nat
  width : Nat
  height : Nat
  pitch : Nat
  hotSpotX : Nat
  hotSpotY : Nat
  deriving Repr, DecidableEq

/-- The width/height slice of `D3D11_TEXTURE2D_DESC` the pixel copy reads. -/
structure TextureDesc where
  Width : Nat
  Height : Nat
  deriving Repr, DecidableEq

/-- Outcomes of the external OS / GPU calls made during one capture call.
The library's control flow is a function of these outcomes; `src` and
`pitch` describe the mapped staging texture (`DXGI_MAPPED_RECT`), and a
successful `GetFramePointerShape` yields the shape metadata and the
bytes it stores into the caller's buffer. -/
structure CallOracle where
  acquire : Except WinError FrameInfo
  shape : Except WinError (PointerShapeInfo × List UInt8)
  release : Except WinError Unit
  mapRes : Except WinError Unit
  unmapRes : Except WinError Unit
  pitch : Nat
  src : List UInt8
  deriving Repr

/-- The list of raw copies issued by the pixel-copy routine
(`capturer.rs::capture`, also inlined in `Monitor::capture` and
`DuplicationContext::capture`), each as
`(source offset, destination offset, byte count)`.
Fast path (`Pitch == width*4`): one block of `dest.len()` bytes.
Slow path: one copy per row, source advancing by `Pitch`, destination by
`width*4`, with byte count `mapped_surface.Pitch as usize` — exactly as
in the source (`ptr::copy_nonoverlapping(src, dest, mapped_surface.Pitch
as usize)`). -/
def captureWrites (td : TextureDesc) (pitch destLen : Nat) : List (Nat × Nat × Nat) :=
  let lineBytes := td.Width * 4
  if pitch = lineBytes then [(0, 0, destLen)]
  else (List.range td.Height).map fun i => (i * pitch, i * lineBytes, pitch)

/-- End (one past the last address) of a single raw copy's destination range. -/
def writeEnd (w : Nat × Nat × Nat) : Nat :=
  w.2.1 + w.2.2

/-- Largest destination address bound touched by a list of raw copies. -/
def writeHigh (ws : List (Nat × Nat × Nat)) : Nat :=
  (ws.map writeEnd).foldr max 0

/-- One raw copy applied to a destination byte list: byte `j` of the copy
moves `src[srcOff+j]` (0 past the end) to `dest[destOff+j]`; `List.set`
drops out-of-range writes, so `captureWrites` is the authority on which
addresses the code really touches. -/
def applyWrite (src : List UInt8) (dest : List UInt8) (w : Nat × Nat × Nat) : List UInt8 :=
  (List.range w.2.2).foldl (fun d j => d.set (w.2.1 + j) (src.getD (w.1 + j) 0)) dest

/-- All raw copies of one capture applied in program order. -/
def applyWrites (src : List UInt8) (ws : List (Nat × Nat × Nat)) (dest : List UInt8) : List UInt8 :=
  ws.foldl (applyWrite src) dest

/-- C1: the slow path is taken for a 2×2 texture reporting pitch 12
(width*4 = 8); the destination buffer has `calc_buffer_size = 16` bytes,
yet each row copy moves 12 bytes (not the row's 8), and the second row's
copy covers destination addresses 8..19, overrunning the 16-byte buffer. -/
theorem slow_path_copies_pitch_bytes :
    calc_buffer_size ⟨⟨2, 2⟩⟩ = 16 ∧
      captureWrites ⟨2, 2⟩ 12 16 = [(0, 0, 12), (12, 8, 12)] ∧
      (∀ w ∈ captureWrites ⟨2, 2⟩ 12 16, w.2.2 = 12 ∧ w.2.2 ≠ 2 * 4) ∧
      writeHigh (captureWrites ⟨2, 2⟩ 12 16) = 20 := by
  refine ⟨by decide, by decide, by decide, by decide⟩

/-- `Monitor::next_frame` (`monitor.rs`) / `DuplicationContext::next_frame`:
acquire the next frame (which also issues the GPU-side CopyResource into
the readable texture), then release it. Returns the library-level result
plus the number of `release_frame` invocations performed. -/
def next_frame (o : CallOracle) : Except DuplError FrameInfo × Nat :=
  match o.acquire with
  | .error e => (.error (.Windows "IDXGIOutputDuplication.AcquireNextFrame" e), 0)
  | .ok fi =>
    match o.release with
    | .error e => (.error (.Windows "IDXGIOutputDuplication.ReleaseFrame" e), 1)
    | .ok _ => (.ok fi, 1)

/-- `Vec::resize(size, 0)` guarded by `if pointer_shape_buffer.len() <
pointer_shape_buffer_size` (`monitor.rs`, `duplication_context.rs`). -/
def resize_up (buf : List UInt8) (n : Nat) : List UInt8 :=
  if buf.length < n then buf ++ List.replicate (n - buf.length) 0 else buf

/-- `GetFramePointerShape` storing `bytes` at the start of the caller's
buffer; the buffer's length is unchanged. -/
def writeShape (buf bytes : List UInt8) : List UInt8 :=
  (bytes ++ buf.drop bytes.length).take buf.length

/-- `Monitor::next_frame_with_pointer_shape` /
`DuplicationContext::next_frame_with_pointer_shape`, parameterised by the
shape-fetch gate predicate on the acquired `FrameInfo`
(`DuplicationContext` uses `mouse_updated().shape_updated`). Acquire;
if the gate is false, release and return no shape; otherwise grow the
scratch buffer to the reported shape size if it is smaller, query the
shape, and release on both the success and the failure path (a failing
release inside the `?` operator replaces the result with the release
error, but is still a single invocation). Returns the result, the new
scratch buffer, and the number of `release_frame` invocations. -/
def next_frame_with_pointer_shape (gate : FrameInfo → Bool) (o : CallOracle)
    (psBuf : List UInt8) :
    Except DuplError (FrameInfo × Option PointerShapeInfo) × List UInt8 × Nat :=
  match o.acquire with
  | .error e => (.error (.Windows "IDXGIOutputDuplication.AcquireNextFrame" e), psBuf, 0)
  | .ok fi =>
    if gate fi then
      let buf1 := resize_up psBuf fi.PointerShapeBufferSize
      match o.shape with
      | .ok (si, bytes) =>
        let buf2 := writeShape buf1 bytes
        match o.release with
        | .error e => (.error (.Windows "IDXGIOutputDuplication.ReleaseFrame" e), buf2, 1)
        | .ok _ => (.ok (fi, some si), buf2, 1)
      | .error e =>
        match o.release with
        | .error e2 => (.error (.Windows "IDXGIOutputDuplication.ReleaseFrame" e2), buf1, 1)
        | .ok _ => (.error (.Windows "IDXGIOutputDuplication.GetFramePointerShape" e), buf1, 1)
    else
      match o.release with
      | .error e => (.error (.Windows "IDXGIOutputDuplication.ReleaseFrame" e), psBuf, 1)
      | .ok _ => (.ok (fi, none), psBuf, 1)

/-- C2: whenever `AcquireNextFrame` succeeds, `next_frame_with_pointer_shape`
invokes `release_frame` exactly once before returning — on the
shape-not-fetched path, the fetch-success path and the fetch-failure
path, for any gate predicate — and so does `next_frame`. -/
theorem release_frame_exactly_once (gate : FrameInfo → Bool) (o : CallOracle)
    (psBuf : List UInt8) (fi : FrameInfo) (h : o.acquire = .ok fi) :
    (next_frame_with_pointer_shape gate o psBuf).2.2 = 1 ∧
      (next_frame o).2 = 1 := by
  constructor
  · unfold next_frame_with_pointer_shape
    rw [h]
    by_cases hg : gate fi
    · simp only [hg, if_true]
      cases hs : o.shape with
      | ok v => cases v with
        | mk si bytes => cases hr : o.release <;> simp
      | error e => cases hr : o.release <;> simp
    · simp only [hg, if_false]
      cases hr : o.release <;> simp
  · unfold next_frame
    rw [h]
    cases hr : o.release <;> simp

/-- C2 witness: a concrete successful acquire (shape fetched and released). -/
theorem release_frame_exactly_once_witness :
    (next_frame_with_pointer_shape dc_shape_gate
        ⟨.ok ⟨1, 1, 3⟩, .ok (⟨1, 4, 4, 16, 0, 0⟩, [1, 2, 3]), .ok (), .ok (), .ok (), 8, []⟩
        []).2.2 = 1 ∧
      (next_frame ⟨.ok ⟨1, 1, 3⟩, .ok (⟨1, 4, 4, 16, 0, 0⟩, [1, 2, 3]), .ok (), .ok (), .ok (), 8, []⟩).2 = 1 :=
  release_frame_exactly_once dc_shape_gate
    ⟨.ok ⟨1, 1, 3⟩, .ok (⟨1, 4, 4, 16, 0, 0⟩, [1, 2, 3]), .ok (), .ok (), .ok (), 8, []⟩
    [] ⟨1, 1, 3⟩ rfl

/-- `Capturer::check_buffer` (`capturer.rs`): fail with
`InvalidBufferLength` iff the buffer's byte length is strictly below
`calc_buffer_size()` recomputed from the monitor's current duplication
descriptor `d`. -/
def check_buffer (buf : List UInt8) (d : OutDuplDesc) : Except DuplError Unit :=
  if buf.length < calc_buffer_size d then .error .InvalidBufferLength else .ok ()

/-- `Capturer::capture_unchecked` (`capturer.rs`): `Monitor::next_frame`
(acquire + CopyResource + release) followed by the pixel copy
(map, copy, unmap). Returns the result, the frame buffer after the call,
and the number of `AcquireNextFrame` invocations. -/
def capture_unchecked (td : TextureDesc) (o : CallOracle) (buf : List UInt8) :
    Except DuplError FrameInfo × List UInt8 × Nat :=
  match next_frame o with
  | (.error e, _) => (.error e, buf, 1)
  | (.ok fi, _) =>
    match o.mapRes with
    | .error e => (.error (.Windows "IDXGISurface1.Map" e), buf, 1)
    | .ok _ =>
      let buf2 := applyWrites o.src (captureWrites td o.pitch buf.length) buf
      match o.unmapRes with
      | .error e => (.error (.Windows "IDXGISurface1.Unmap" e), buf2, 1)
      | .ok _ => (.ok fi, buf2, 1)

/-- `Capturer::capture` (`capturer.rs`): `check_buffer` against the
monitor's current descriptor, then `capture_unchecked`. -/
def capturer_capture (d : OutDuplDesc) (td : TextureDesc) (o : CallOracle)
    (buf : List UInt8) : Except DuplError FrameInfo × List UInt8 × Nat :=
  match check_buffer buf d with
  | .error e => (.error e, buf, 0)
  | .ok _ => capture_unchecked td o buf

/-- `Capturer::capture_with_pointer_shape_unchecked` (`capturer.rs`):
`Monitor::next_frame_with_pointer_shape` followed by the pixel copy.
Returns the result, the frame buffer, the pointer-shape scratch buffer,
and the number of `AcquireNextFrame` invocations. -/
def capture_with_pointer_shape_unchecked (gate : FrameInfo → Bool) (td : TextureDesc)
    (o : CallOracle) (buf psBuf : List UInt8) :
    Except DuplError (FrameInfo × Option PointerShapeInfo) × List UInt8 × List UInt8 × Nat :=
  match next_frame_with_pointer_shape gate o psBuf with
  | (.error e, psBuf2, _) => (.error e, buf, psBuf2, 1)
  | (.ok r, psBuf2, _) =>
    match o.mapRes with
    | .error e => (.error (.Windows "IDXGISurface1.Map" e), buf, psBuf2, 1)
    | .ok _ =>
      let buf2 := applyWrites o.src (captureWrites td o.pitch buf.length) buf
      match o.unmapRes with
      | .error e => (.error (.Windows "IDXGISurface1.Unmap" e), buf2, psBuf2, 1)
      | .ok _ => (.ok r, buf2, psBuf2, 1)

/-- `Capturer::capture_with_pointer_shape` (`capturer.rs`): `check_buffer`
first, then the unchecked variant. -/
def capturer_capture_with_pointer_shape (gate : FrameInfo → Bool) (d : OutDuplDesc)
    (td : TextureDesc) (o : CallOracle) (buf psBuf : List UInt8) :
    Except DuplError (FrameInfo × Option PointerShapeInfo) × List UInt8 × List UInt8 × Nat :=
  match check_buffer buf d with
  | .error e => (.error e, buf, psBuf, 0)
  | .ok _ => capture_with_pointer_shape_unchecked gate td o buf psBuf

/-- C3: `check_buffer` fails with `InvalidBufferLength` iff the buffer is
strictly smaller than `calc_buffer_size()` for the current descriptor,
and when it fails, `capture` and `capture_with_pointer_shape` return
that error with no frame acquired and the frame buffer untouched. -/
theorem check_buffer_iff_and_guards (d : OutDuplDesc) (td : TextureDesc)
    (o : CallOracle) (gate : FrameInfo → Bool) (buf psBuf : List UInt8) :
    (check_buffer buf d = .error .InvalidBufferLength ↔
      buf.length < calc_buffer_size d) ∧
      (buf.length < calc_buffer_size d →
        capturer_capture d td o buf = (.error .InvalidBufferLength, buf, 0) ∧
          capturer_capture_with_pointer_shape gate d td o buf psBuf =
            (.error .InvalidBufferLength, buf, psBuf, 0)) := by
  constructor
  · unfold check_buffer
    by_cases h : buf.length < calc_buffer_size d <;> simp [h]
  · intro h
    unfold capturer_capture capturer_capture_with_pointer_shape check_buffer
    simp [h]

/-- C3 witness: a 1×1 descriptor needs 4 bytes; the empty buffer fails the
check and both checked capture entry points bail out before acquiring. -/
theorem check_buffer_iff_and_guards_witness :
    (check_buffer [] ⟨⟨1, 1⟩⟩ = .error .InvalidBufferLength ↔
      ([] : List UInt8).length < calc_buffer_size ⟨⟨1, 1⟩⟩) ∧
      (capturer_capture ⟨⟨1, 1⟩⟩ ⟨1, 1⟩
          ⟨.ok ⟨1, 0, 0⟩, .error ⟨1⟩, .ok (), .ok (), .ok (), 4, [0, 0, 0, 0]⟩ [] =
        (.error .InvalidBufferLength, [], 0) ∧
        capturer_capture_with_pointer_shape dc_shape_gate ⟨⟨1, 1⟩⟩ ⟨1, 1⟩
            ⟨.ok ⟨1, 0, 0⟩, .error ⟨1⟩, .ok (), .ok (), .ok (), 4, [0, 0, 0, 0]⟩ [] [] =
          (.error .InvalidBufferLength, [], [], 0)) := by
  refine ⟨(check_buffer_iff_and_guards ⟨⟨1, 1⟩⟩ ⟨1, 1⟩
    ⟨.ok ⟨1, 0, 0⟩, .error ⟨1⟩, .ok (), .ok (), .ok (), 4, [0, 0, 0, 0]⟩ dc_shape_gate [] []).1,
    (check_buffer_iff_and_guards ⟨⟨1, 1⟩⟩ ⟨1, 1⟩
      ⟨.ok ⟨1, 0, 0⟩, .error ⟨1⟩, .ok (), .ok (), .ok (), 4, [0, 0, 0, 0]⟩ dc_shape_gate [] []).2
      (by decide)⟩

theorem resize_up_length (buf : List UInt8) (n : Nat) :
    (resize_up buf n).length = max buf.length n := by
  unfold resize_up
  split <;> simp <;> omega

theorem writeShape_length (buf bytes : List UInt8) :
    (writeShape buf bytes).length = buf.length := by
  unfold writeShape
  simp
  omega

theorem writeShape_take (buf bytes : List UInt8) (h : bytes.length ≤ buf.length) :
    (writeShape buf bytes).take bytes.length = bytes := by
  unfold writeShape
  rw [List.take_take, min_eq_left h, List.take_left]

/-- `DuplicationContext::capture_with_pointer_shape`
(`duplication_context.rs`): `next_frame_with_pointer_shape` (gated on
`mouse_updated().shape_updated`), then map / pixel-copy / unmap into the
destination frame buffer. Returns the result, the pointer-shape scratch
buffer, and the destination buffer. -/
def dc_capture_with_pointer_shape (td : TextureDesc) (o : CallOracle)
    (psBuf dest : List UInt8) :
    Except DuplError (FrameInfo × Option PointerShapeInfo) × List UInt8 × List UInt8 :=
  match next_frame_with_pointer_shape dc_shape_gate o psBuf with
  | (.error e, psBuf2, _) => (.error e, psBuf2, dest)
  | (.ok r, psBuf2, _) =>
    match o.mapRes with
    | .error e => (.error (.Windows "Map" e), psBuf2, dest)
    | .ok _ =>
      let dest2 := applyWrites o.src (captureWrites td o.pitch dest.length) dest
      match o.unmapRes with
      | .error e => (.error (.Windows "Unmap" e), psBuf2, dest2)
      | .ok _ => (.ok r, psBuf2, dest2)

/-- C4: whenever `capture_with_pointer_shape` returns successfully, the
returned option is `some` exactly when the acquired frame's pointer
shape is reported updated (`mouse_updated().shape_updated`), and in the
`some` case `GetFramePointerShape` succeeded and its bytes now sit at
the start of the pointer-shape buffer. -/
theorem pointer_shape_some_iff_updated (td : TextureDesc) (o : CallOracle)
    (psBuf dest : List UInt8) (fi : FrameInfo) (opt : Option PointerShapeInfo)
    (psBuf2 dest2 : List UInt8)
    (h : dc_capture_with_pointer_shape td o psBuf dest = (.ok (fi, opt), psBuf2, dest2)) :
    (opt.isSome = dc_shape_gate fi) ∧
      ∀ si, opt = some si →
        ∃ bytes, o.shape = .ok (si, bytes) ∧
          (bytes.length = fi.PointerShapeBufferSize →
            psBuf2.take fi.PointerShapeBufferSize = bytes) := by
  unfold dc_capture_with_pointer_shape next_frame_with_pointer_shape at h
  cases ha : o.acquire with
  | error e => rw [ha] at h; simp at h
  | ok fi0 =>
    rw [ha] at h
    by_cases hg : dc_shape_gate fi0
    · simp only [hg, if_true] at h
      cases hs : o.shape with
      | error e =>
        rw [hs] at h
        cases hr : o.release <;> rw [hr] at h <;> simp at h
      | ok v =>
        rw [hs] at h
        cases v with
        | mk si0 bytes0 =>
          cases hr : o.release with
          | error e => rw [hr] at h; simp at h
          | ok u =>
            rw [hr] at h
            cases hm : o.mapRes with
            | error e => rw [hm] at h; simp at h
            | ok u2 =>
              rw [hm] at h
              cases hu : o.unmapRes with
              | error e => rw [hu] at h; simp at h
              | ok u3 =>
                rw [hu] at h
                injection h with h1 h2
                injection h2 with hps hd
                injection h1 with hr0
                injection hr0 with hfi hopt
                subst hfi hopt hps
                refine ⟨by simp [hg], ?_⟩
                intro si hsi
                obtain rfl : si0 = si := by
                  simpa using hsi
                refine ⟨bytes0, rfl, ?_⟩
                intro hlen
                rw [← hlen, writeShape_take]
                rw [resize_up_length, hlen]
                omega
    · simp only [hg, if_false] at h
      cases hr : o.release with
      | error e => rw [hr] at h; simp at h
      | ok u =>
        rw [hr] at h
        cases hm : o.mapRes with
        | error e => rw [hm] at h; simp at h
        | ok u2 =>
          rw [hm] at h
          cases hu : o.unmapRes with
          | error e => rw [hu] at h; simp at h
          | ok u3 =>
            rw [hu] at h
            injection h with h1 h2
            injection h1 with hr0
            injection hr0 with hfi hopt
            subst hfi hopt
            exact ⟨by simp [hg], by intro si hsi; simp at hsi⟩

/-- C4 witness: mouse and shape updated, 3 shape bytes fetched; the result
is `some` and the scratch buffer starts with those bytes. -/
theorem pointer_shape_some_iff_updated_witness :
    ((some (⟨1, 4, 4, 16, 0, 0⟩ : PointerShapeInfo)).isSome =
      dc_shape_gate ⟨1, 1, 3⟩) ∧
      ∀ si, some (⟨1, 4, 4, 16, 0, 0⟩ : PointerShapeInfo) = some si →
        ∃ bytes,
          (Except.ok (⟨1, 4, 4, 16, 0, 0⟩, [1, 2, 3]) :
            Except WinError (PointerShapeInfo × List UInt8)) = .ok (si, bytes) ∧
          (bytes.length = (3 : Nat) →
            ((writeShape (resize_up [] 3) [1, 2, 3]).take 3 : List UInt8) = bytes) :=
  pointer_shape_some_iff_updated ⟨1, 1⟩
    ⟨.ok ⟨1, 1, 3⟩, .ok (⟨1, 4, 4, 16, 0, 0⟩, [1, 2, 3]), .ok (), .ok (), .ok (), 4, [5, 5, 5, 5]⟩
    [] [0, 0, 0, 0] ⟨1, 1, 3⟩ (some ⟨1, 4, 4, 16, 0, 0⟩)
    (writeShape (resize_up [] 3) [1, 2, 3])
    (applyWrites [5, 5, 5, 5] (captureWrites ⟨1, 1⟩ 4 4) [0, 0, 0, 0]) rfl

theorem nfps_psbuf_len (gate : FrameInfo → Bool) (o : CallOracle) (psBuf : List UInt8) :
    ((next_frame_with_pointer_shape gate o psBuf).2.1).length =
      match o.acquire with
      | .ok fi => if gate fi then max psBuf.length fi.PointerShapeBufferSize else psBuf.length
      | .error _ => psBuf.length := by
  unfold next_frame_with_pointer_shape
  cases ha : o.acquire with
  | error e => simp
  | ok fi =>
    by_cases hg : gate fi
    · simp only [hg, if_true]
      cases hs : o.shape with
      | ok v =>
        cases v with
        | mk si bytes =>
          cases hr : o.release <;> simp [writeShape_length, resize_up_length]
      | error e =>
        cases hr : o.release <;> simp [resize_up_length]
    · simp only [hg, if_false]
      cases hr : o.release <;> simp

theorem nfps_psbuf_mono (gate : FrameInfo → Bool) (o : CallOracle) (psBuf : List UInt8) :
    psBuf.length ≤ ((next_frame_with_pointer_shape gate o psBuf).2.1).length := by
  rw [nfps_psbuf_len]
  cases o.acquire with
  | error e => exact le_refl _
  | ok fi =>
    dsimp only
    split
    · exact le_max_left _ _
    · exact le_refl _

theorem nfps_ok_inv (gate : FrameInfo → Bool) (o : CallOracle) (psBuf : List UInt8)
    (fi : FrameInfo) (opt : Option PointerShapeInfo) (buf2 : List UInt8) (n : Nat)
    (h : next_frame_with_pointer_shape gate o psBuf = (.ok (fi, opt), buf2, n)) :
    o.acquire = .ok fi ∧
      (if gate fi then
        ∃ si bytes, o.shape = .ok (si, bytes) ∧ opt = some si ∧
          buf2 = writeShape (resize_up psBuf fi.PointerShapeBufferSize) bytes
      else opt = none ∧ buf2 = psBuf) := by
  unfold next_frame_with_pointer_shape at h
  cases ha : o.acquire with
  | error e => rw [ha] at h; simp at h
  | ok fi0 =>
    rw [ha] at h
    by_cases hg : gate fi0
    · simp only [hg, if_true] at h
      cases hs : o.shape with
      | error e =>
        rw [hs] at h
        cases hr : o.release <;> rw [hr] at h <;> simp at h
      | ok v =>
        rw [hs] at h
        cases v with
        | mk si0 bytes0 =>
          cases hr : o.release with
          | error e => rw [hr] at h; simp at h
          | ok u =>
            rw [hr] at h
            injection h with h1 h2
            injection h2 with hb hn
            injection h1 with hr0
            injection hr0 with hfi hopt
            subst hfi hopt hb
            refine ⟨rfl, ?_⟩
            simp only [hg, if_true]
            exact ⟨si0, bytes0, rfl, rfl, rfl⟩
    · simp only [hg, if_false] at h
      cases hr : o.release with
      | error e => rw [hr] at h; simp at h
      | ok u =>
        rw [hr] at h
        injection h with h1 h2
        injection h2 with hb hn
        injection h1 with hr0
        injection hr0 with hfi hopt
        subst hfi hopt hb
        refine ⟨rfl, ?_⟩
        simp only [hg, if_false]
        refine ⟨?_, ?_⟩ <;> trivial

theorem dc_psbuf_eq (td : TextureDesc) (o : CallOracle) (psBuf dest : List UInt8) :
    (dc_capture_with_pointer_shape td o psBuf dest).2.1 =
      (next_frame_with_pointer_shape dc_shape_gate o psBuf).2.1 := by
  unfold dc_capture_with_pointer_shape
  rcases hn : next_frame_with_pointer_shape dc_shape_gate o psBuf with ⟨r, psBuf2, n⟩
  cases r with
  | error e => simp
  | ok r0 => cases o.mapRes <;> cases o.unmapRes <;> simp

theorem dc_ok_inv (td : TextureDesc) (o : CallOracle) (psBuf dest : List UInt8)
    (fi : FrameInfo) (opt : Option PointerShapeInfo) (buf2 dest2 : List UInt8)
    (h : dc_capture_with_pointer_shape td o psBuf dest = (.ok (fi, opt), buf2, dest2)) :
    o.acquire = .ok fi ∧
      (if dc_shape_gate fi then
        ∃ si bytes, o.shape = .ok (si, bytes) ∧ opt = some si ∧
          buf2 = writeShape (resize_up psBuf fi.PointerShapeBufferSize) bytes
      else opt = none ∧ buf2 = psBuf) := by
  have hmain : ∃ n, next_frame_with_pointer_shape dc_shape_gate o psBuf = (.ok (fi, opt), buf2, n) := by
    unfold dc_capture_with_pointer_shape at h
    rcases hn : next_frame_with_pointer_shape dc_shape_gate o psBuf with ⟨r, psBuf2, n⟩
    rw [hn] at h
    cases r with
    | error e => simp at h
    | ok r0 =>
      cases hm : o.mapRes with
      | error e => rw [hm] at h; simp at h
      | ok u =>
        rw [hm] at h
        cases hu : o.unmapRes with
        | error e => rw [hu] at h; simp at h
        | ok u2 =>
          rw [hu] at h
          injection h with h1 h2
          injection h2 with hb hd
          injection h1 with hr0
          subst hr0 hb
          exact ⟨n, rfl⟩
  obtain ⟨n, hn⟩ := hmain
  exact nfps_ok_inv dc_shape_gate o psBuf fi opt buf2 n hn

theorem dc_gate_false_mouse_true (fi : FrameInfo) (hg : dc_shape_gate fi = false)
    (hm : mouse_updated_bool fi = true) : fi.PointerShapeBufferSize = 0 := by
  unfold dc_shape_gate mouse_updated at hg
  unfold mouse_updated_bool at hm
  rw [decide_eq_true_iff] at hm
  rw [if_pos hm] at hg
  simp at hg
  exact hg

/-- The pointer-shape scratch buffer of one capturer lifetime, threaded
through a sequence of `next_frame_with_pointer_shape` calls starting
from the freshly constructed capturer's empty `Vec::new()`
(`capturer.rs::new`). -/
def runScratch (gate : FrameInfo → Bool) (steps : List CallOracle) : List UInt8 :=
  steps.foldl (fun buf o => (next_frame_with_pointer_shape gate o buf).2.1) []

/-- Largest reported pointer-shape size among the calls of a sequence
that acquired a frame and passed the shape-fetch gate, starting from `n`. -/
def maxShapeSeenFrom (gate : FrameInfo → Bool) (steps : List CallOracle) (n : Nat) : Nat :=
  steps.foldl
    (fun acc o =>
      match o.acquire with
      | .ok fi => if gate fi then max acc fi.PointerShapeBufferSize else acc
      | .error _ => acc) n

theorem runScratch_from_len (gate : FrameInfo → Bool) (steps : List CallOracle)
    (buf : List UInt8) :
    (steps.foldl (fun b o => (next_frame_with_pointer_shape gate o b).2.1) buf).length =
      maxShapeSeenFrom gate steps buf.length := by
  induction steps generalizing buf with
  | nil => rfl
  | cons o rest ih =>
    unfold maxShapeSeenFrom
    rw [List.foldl_cons, List.foldl_cons, ih, nfps_psbuf_len]
    rfl

theorem maxShapeSeenFrom_le (gate : FrameInfo → Bool) (steps : List CallOracle) (n : Nat) :
    n ≤ maxShapeSeenFrom gate steps n := by
  induction steps generalizing n with
  | nil => exact le_refl n
  | cons o rest ih =>
    unfold maxShapeSeenFrom
    rw [List.foldl_cons]
    refine le_trans ?_ (ih _)
    cases o.acquire with
    | error e => exact le_refl n
    | ok fi =>
      dsimp only
      split
      · exact le_max_left _ _
      · exact le_refl n

/-- C8: within one capturer lifetime the pointer-shape scratch buffer
never shrinks — appending one more call never decreases its length — and
after every call sequence its length is exactly the maximum
`PointerShapeBufferSize` seen among the frames whose shape was queried
(zero for a fresh capturer), for any shape-fetch gate. -/
theorem scratch_never_shrinks (gate : FrameInfo → Bool) (steps : List CallOracle)
    (o : CallOracle) :
    (runScratch gate steps).length ≤ (runScratch gate (steps ++ [o])).length ∧
      (runScratch gate steps).length = maxShapeSeenFrom gate steps 0 := by
  constructor
  · unfold runScratch
    rw [List.foldl_append, List.foldl_cons, List.foldl_nil]
    exact nfps_psbuf_mono gate o _
  · unfold runScratch
    exact runScratch_from_len gate steps []

/-- The pointer-shape double-buffer state of `SharedCapturer` /
`CustomCapturer` (`capturer/shared.rs`, `capturer/custom.rs`): a current
and a last buffer, each with a recorded size. -/
structure ShapeState where
  pointer_shape_buffer : List UInt8
  pointer_shape_buffer_size : Nat
  last_pointer_shape_buffer : List UInt8
  last_pointer_shape_buffer_size : Nat
  deriving Repr, DecidableEq

/-- Freshly constructed capturer: both buffers `Vec::new()`, both sizes 0. -/
def initShapeState : ShapeState := ⟨[], 0, [], 0⟩

/-- Rust slicing `&buf[..n]`: defined only when `n ≤ buf.len()`;
`none` models the out-of-bounds panic. -/
def rustSliceTo (l : List UInt8) (n : Nat) : Option (List UInt8) :=
  if n ≤ l.length then some (l.take n) else none

/-- `SharedCapturer::pointer_shape_buffer`:
`&self.pointer_shape_buffer[..self.pointer_shape_buffer_size]`. -/
def shared_pointer_shape_buffer (s : ShapeState) : Option (List UInt8) :=
  rustSliceTo s.pointer_shape_buffer s.pointer_shape_buffer_size

/-- `SharedCapturer::pointer_shape_updated`: the sizes differ, or
(short-circuit `||`) the two `pointer_shape_buffer_size`-length prefixes
differ; the prefix slicing only happens when the first test is false. -/
def shared_pointer_shape_updated (s : ShapeState) : Option Bool :=
  if s.pointer_shape_buffer_size ≠ s.last_pointer_shape_buffer_size then some true
  else
    match rustSliceTo s.pointer_shape_buffer s.pointer_shape_buffer_size,
        rustSliceTo s.last_pointer_shape_buffer s.pointer_shape_buffer_size with
    | some a, some b => some (decide (a ≠ b))
    | _, _ => none

/-- `SharedCapturer::capture_with_pointer_shape` (`capturer/shared.rs`;
`CustomCapturer` is identical): run the context's
`capture_with_pointer_shape` writing into the **last** pointer-shape
buffer, then — when `frame_info.mouse_updated()` — record the frame's
`PointerShapeBufferSize` as the last size and swap the two buffers and
the two sizes. -/
def shared_capture_with_pointer_shape (td : TextureDesc) (o : CallOracle)
    (dest : List UInt8) (s : ShapeState) :
    Except DuplError (FrameInfo × Option PointerShapeInfo) × ShapeState × List UInt8 :=
  match dc_capture_with_pointer_shape td o s.last_pointer_shape_buffer dest with
  | (.error e, buf2, dest2) =>
    (.error e, { s with last_pointer_shape_buffer := buf2 }, dest2)
  | (.ok (fi, opt), buf2, dest2) =>
    if mouse_updated_bool fi then
      (.ok (fi, opt),
        { pointer_shape_buffer := buf2
          pointer_shape_buffer_size := fi.PointerShapeBufferSize
          last_pointer_shape_buffer := s.pointer_shape_buffer
          last_pointer_shape_buffer_size := s.pointer_shape_buffer_size }, dest2)
    else
      (.ok (fi, opt), { s with last_pointer_shape_buffer := buf2 }, dest2)

/-- The single-buffer pointer-shape state of `SimpleCapturer`
(`capturer/simple.rs`). -/
structure SimpleShapeState where
  pointer_shape_buffer : List UInt8
  pointer_shape_buffer_size : Nat
  deriving Repr, DecidableEq

/-- Freshly constructed `SimpleCapturer`: empty buffer, size 0. -/
def initSimpleShapeState : SimpleShapeState := ⟨[], 0⟩

/-- `SimpleCapturer::pointer_shape_buffer`:
`&self.pointer_shape_buffer[..self.pointer_shape_buffer_size]`. -/
def simple_pointer_shape_buffer (s : SimpleShapeState) : Option (List UInt8) :=
  rustSliceTo s.pointer_shape_buffer s.pointer_shape_buffer_size

/-- `SimpleCapturer::capture_with_pointer_shape` (`capturer/simple.rs`):
run the context's `capture_with_pointer_shape` on its single buffer and
record the frame's `PointerShapeBufferSize` only when shape info was
returned (`pointer_shape_info.is_some()`). -/
def simple_capture_with_pointer_shape (td : TextureDesc) (o : CallOracle)
    (dest : List UInt8) (s : SimpleShapeState) :
    Except DuplError (FrameInfo × Option PointerShapeInfo) × SimpleShapeState × List UInt8 :=
  match dc_capture_with_pointer_shape td o s.pointer_shape_buffer dest with
  | (.error e, buf2, dest2) => (.error e, ⟨buf2, s.pointer_shape_buffer_size⟩, dest2)
  | (.ok (fi, opt), buf2, dest2) =>
    (.ok (fi, opt),
      ⟨buf2, if opt.isSome then fi.PointerShapeBufferSize else s.pointer_shape_buffer_size⟩,
      dest2)

/-- A sequence of capture calls: each entry is the call's OS outcomes and
the destination frame buffer contents passed to the pixel copy. -/
def runShared (td : TextureDesc) (steps : List (CallOracle × List UInt8)) : ShapeState :=
  steps.foldl (fun s p => (shared_capture_with_pointer_shape td p.1 p.2 s).2.1)
    initShapeState

def runSimple (td : TextureDesc) (steps : List (CallOracle × List UInt8)) : SimpleShapeState :=
  steps.foldl (fun s p => (simple_capture_with_pointer_shape td p.1 p.2 s).2.1)
    initSimpleShapeState

/-- Both recorded sizes are within their backing buffers. -/
def SharedShapeInv (s : ShapeState) : Prop :=
  s.pointer_shape_buffer_size ≤ s.pointer_shape_buffer.length ∧
    s.last_pointer_shape_buffer_size ≤ s.last_pointer_shape_buffer.length

/-- The recorded size is within the backing buffer. -/
def SimpleShapeInv (s : SimpleShapeState) : Prop :=
  s.pointer_shape_buffer_size ≤ s.pointer_shape_buffer.length

theorem dc_psbuf_mono (td : TextureDesc) (o : CallOracle) (psBuf dest : List UInt8) :
    psBuf.length ≤ ((dc_capture_with_pointer_shape td o psBuf dest).2.1).length := by
  rw [dc_psbuf_eq]
  exact nfps_psbuf_mono dc_shape_gate o psBuf

theorem shared_step_inv (td : TextureDesc) (o : CallOracle) (dest : List UInt8)
    (s : ShapeState) (hinv : SharedShapeInv s) :
    SharedShapeInv (shared_capture_with_pointer_shape td o dest s).2.1 := by
  obtain ⟨hc, hl⟩ := hinv
  unfold shared_capture_with_pointer_shape
  rcases hd : dc_capture_with_pointer_shape td o s.last_pointer_shape_buffer dest
    with ⟨r, buf2, dest2⟩
  have hmono : s.last_pointer_shape_buffer.length ≤ buf2.length := by
    have := dc_psbuf_mono td o s.last_pointer_shape_buffer dest
    rw [hd] at this
    exact this
  cases r with
  | error e => exact ⟨hc, le_trans hl hmono⟩
  | ok r0 =>
    cases r0 with
    | mk fi opt =>
      by_cases hm : mouse_updated_bool fi
      · simp only [hm, if_true]
        refine ⟨?_, hc⟩
        have hinvok := dc_ok_inv td o s.last_pointer_shape_buffer dest fi opt buf2 dest2 hd
        by_cases hg : dc_shape_gate fi
        · obtain ⟨-, hrest⟩ := hinvok
          rw [if_pos hg] at hrest
          obtain ⟨si, bytes, -, -, hbuf⟩ := hrest
          rw [hbuf, writeShape_length, resize_up_length]
          exact le_max_right _ _
        · have hz := dc_gate_false_mouse_true fi (by simpa using hg) hm
          rw [hz]
          exact Nat.zero_le _
      · simp only [hm, if_false]
        exact ⟨hc, le_trans hl hmono⟩

theorem simple_step_inv (td : TextureDesc) (o : CallOracle) (dest : List UInt8)
    (s : SimpleShapeState) (hinv : SimpleShapeInv s) :
    SimpleShapeInv (simple_capture_with_pointer_shape td o dest s).2.1 := by
  unfold SimpleShapeInv at hinv
  unfold simple_capture_with_pointer_shape
  rcases hd : dc_capture_with_pointer_shape td o s.pointer_shape_buffer dest
    with ⟨r, buf2, dest2⟩
  have hmono : s.pointer_shape_buffer.length ≤ buf2.length := by
    have := dc_psbuf_mono td o s.pointer_shape_buffer dest
    rw [hd] at this
    exact this
  cases r with
  | error e => exact le_trans hinv hmono
  | ok r0 =>
    cases r0 with
    | mk fi opt =>
      unfold SimpleShapeInv
      dsimp only
      cases hopt : opt with
      | none => simpa using le_trans hinv hmono
      | some si =>
        simp only [Option.isSome_some, if_true]
        have hinvok := dc_ok_inv td o s.pointer_shape_buffer dest fi opt buf2 dest2 hd
        obtain ⟨-, hrest⟩ := hinvok
        by_cases hg : dc_shape_gate fi
        · rw [if_pos hg] at hrest
          obtain ⟨si2, bytes, -, -, hbuf⟩ := hrest
          rw [hbuf, writeShape_length, resize_up_length]
          exact le_max_right _ _
        · rw [if_neg hg] at hrest
          rw [hopt] at hrest
          simp at hrest

theorem shared_accessors_isSome (s : ShapeState) (hinv : SharedShapeInv s) :
    (shared_pointer_shape_buffer s).isSome = true ∧
      (shared_pointer_shape_updated s).isSome = true := by
  obtain ⟨hc, hl⟩ := hinv
  constructor
  · unfold shared_pointer_shape_buffer rustSliceTo
    rw [if_pos hc]
    rfl
  · unfold shared_pointer_shape_updated
    by_cases hne : s.pointer_shape_buffer_size ≠ s.last_pointer_shape_buffer_size
    · rw [if_pos hne]
      rfl
    · rw [if_neg hne]
      push_neg at hne
      unfold rustSliceTo
      rw [if_pos hc, if_pos (by rw [hne]; exact hl)]
      rfl

theorem runShared_inv_from (td : TextureDesc) (steps : List (CallOracle × List UInt8))
    (s : ShapeState) (h : SharedShapeInv s) :
    SharedShapeInv
      (steps.foldl (fun s p => (shared_capture_with_pointer_shape td p.1 p.2 s).2.1) s) := by
  induction steps generalizing s with
  | nil => exact h
  | cons p rest ih =>
    rw [List.foldl_cons]
    exact ih _ (shared_step_inv td p.1 p.2 s h)

theorem runSimple_inv_from (td : TextureDesc) (steps : List (CallOracle × List UInt8))
    (s : SimpleShapeState) (h : SimpleShapeInv s) :
    SimpleShapeInv
      (steps.foldl (fun s p => (simple_capture_with_pointer_shape td p.1 p.2 s).2.1) s) := by
  induction steps generalizing s with
  | nil => exact h
  | cons p rest ih =>
    rw [List.foldl_cons]
    exact ih _ (simple_step_inv td p.1 p.2 s h)

/-- C10: starting from a freshly constructed capturer, every sequence of
`capture_with_pointer_shape` calls preserves the invariant that each
recorded pointer-shape size is at most its backing buffer's length (for
the current and the last buffer of the shared/custom capturer and the
single buffer of the simple capturer); consequently
`pointer_shape_buffer()` and `pointer_shape_updated()` never slice out
of bounds (they are `some`, never the out-of-bounds `none`). -/
theorem shape_sizes_within_buffers (td : TextureDesc)
    (steps : List (CallOracle × List UInt8)) :
    SharedShapeInv (runShared td steps) ∧
      (shared_pointer_shape_buffer (runShared td steps)).isSome = true ∧
      (shared_pointer_shape_updated (runShared td steps)).isSome = true ∧
      SimpleShapeInv (runSimple td steps) ∧
      (simple_pointer_shape_buffer (runSimple td steps)).isSome = true := by
  have hsh : SharedShapeInv (runShared td steps) :=
    runShared_inv_from td steps initShapeState (by constructor <;> exact le_refl 0)
  have hsi : SimpleShapeInv (runSimple td steps) :=
    runSimple_inv_from td steps initSimpleShapeState (le_refl 0)
  obtain ⟨h1, h2⟩ := shared_accessors_isSome _ hsh
  refine ⟨hsh, h1, h2, hsi, ?_⟩
  unfold SimpleShapeInv at hsi
  unfold simple_pointer_shape_buffer rustSliceTo
  rw [if_pos hsi]
  rfl

/-- Stated from the spec's words, for refinement comparison with the
code's `pointer_shape_updated`: a shape is considered different if the
recorded sizes differ or the recorded byte contents (each buffer's
recorded-size prefix) differ. -/
def shape_differs_spec (s : ShapeState) : Bool :=
  decide (s.pointer_shape_buffer_size ≠ s.last_pointer_shape_buffer_size) ||
    decide (s.pointer_shape_buffer.take s.pointer_shape_buffer_size ≠
      s.last_pointer_shape_buffer.take s.last_pointer_shape_buffer_size)

theorem updated_eq_spec (s : ShapeState) (hinv : SharedShapeInv s) :
    shared_pointer_shape_updated s = some (shape_differs_spec s) := by
  obtain ⟨hc, hl⟩ := hinv
  unfold shared_pointer_shape_updated shape_differs_spec
  by_cases hne : s.pointer_shape_buffer_size ≠ s.last_pointer_shape_buffer_size
  · rw [if_pos hne]
    simp [hne]
  · rw [if_neg hne]
    push_neg at hne
    unfold rustSliceTo
    rw [if_pos hc, if_pos (by rw [hne]; exact hl)]
    simp [hne]

theorem dc_gate_true_mouse (fi : FrameInfo) (h : dc_shape_gate fi = true) :
    mouse_updated_bool fi = true := by
  unfold dc_shape_gate mouse_updated at h
  unfold mouse_updated_bool
  by_cases hm : 0 < fi.LastMouseUpdateTime
  · simp [hm]
  · rw [if_neg hm] at h
    simp at h

/-- A call whose frame reports mouse and shape both updated, with a
3-byte shape successfully fetched. -/
def oracleFill3 : CallOracle :=
  ⟨.ok ⟨1, 1, 3⟩, .ok (⟨1, 4, 4, 16, 0, 0⟩, [1, 2, 3]), .ok (), .ok (), .ok (), 4, []⟩

/-- A call whose frame reports a mouse update with shape size 0
(position-only move): no shape is fetched. -/
def oraclePosOnly : CallOracle :=
  ⟨.ok ⟨1, 5, 0⟩, .error ⟨9⟩, .ok (), .ok (), .ok (), 4, []⟩

/-- Shared-capturer state after the fill call. -/
def sharedRunState1 : ShapeState :=
  (shared_capture_with_pointer_shape ⟨1, 1⟩ oracleFill3 [] initShapeState).2.1

/-- Shared-capturer state after the subsequent position-only call. -/
def sharedRunState2 : ShapeState :=
  (shared_capture_with_pointer_shape ⟨1, 1⟩ oraclePosOnly [] sharedRunState1).2.1

/-- C5 counterexample: after call 1 successfully fills the 3-byte shape,
`pointer_shape_buffer()` holds it; call 2 succeeds with a position-only
mouse update (shape size 0, nothing fetched, `none` returned) yet the
swap — gated on the mouse timestamp alone — runs again, and
`pointer_shape_buffer()` becomes the empty slice: the current buffer no
longer holds the most recently fetched shape `[1, 2, 3]`. -/
theorem shared_current_loses_latest_shape :
    (shared_capture_with_pointer_shape ⟨1, 1⟩ oracleFill3 [] initShapeState).1 =
        .ok (⟨1, 1, 3⟩, some ⟨1, 4, 4, 16, 0, 0⟩) ∧
      shared_pointer_shape_buffer sharedRunState1 = some [1, 2, 3] ∧
      (shared_capture_with_pointer_shape ⟨1, 1⟩ oraclePosOnly [] sharedRunState1).1 =
        .ok (⟨1, 5, 0⟩, none) ∧
      shared_pointer_shape_buffer sharedRunState2 = some [] :=
  ⟨rfl, rfl, rfl, rfl⟩

/-- C5 (amended): after every successful `capture_with_pointer_shape` call
in which a new shape was filled (the context returned `some` shape
info), the current and last buffers and their recorded sizes are
swapped: the current buffer then holds the newly fetched shape bytes
with the frame's recorded size, the last buffer and size retain the
previous current ones, and `pointer_shape_updated()` reports exactly
"recorded sizes differ or recorded contents differ". (The swap is gated
on the mouse-update timestamp alone, so only until the next successful
mouse-updating call — a position-only update swaps again, as the
counterexample shows.) -/
theorem shared_swap_after_fill (td : TextureDesc) (o : CallOracle) (dest : List UInt8)
    (s : ShapeState) (fi : FrameInfo) (si : PointerShapeInfo)
    (hinv : SharedShapeInv s)
    (h : (shared_capture_with_pointer_shape td o dest s).1 = .ok (fi, some si)) :
    ∃ bytes,
      o.shape = .ok (si, bytes) ∧
      (shared_capture_with_pointer_shape td o dest s).2.1.last_pointer_shape_buffer =
        s.pointer_shape_buffer ∧
      (shared_capture_with_pointer_shape td o dest s).2.1.last_pointer_shape_buffer_size =
        s.pointer_shape_buffer_size ∧
      (shared_capture_with_pointer_shape td o dest s).2.1.pointer_shape_buffer_size =
        fi.PointerShapeBufferSize ∧
      (bytes.length = fi.PointerShapeBufferSize →
        shared_pointer_shape_buffer (shared_capture_with_pointer_shape td o dest s).2.1 =
          some bytes) ∧
      shared_pointer_shape_updated (shared_capture_with_pointer_shape td o dest s).2.1 =
        some (shape_differs_spec (shared_capture_with_pointer_shape td o dest s).2.1) := by
  have hstep := shared_step_inv td o dest s hinv
  have hupd := updated_eq_spec _ hstep
  unfold shared_capture_with_pointer_shape at h hupd hstep ⊢
  rcases hd : dc_capture_with_pointer_shape td o s.last_pointer_shape_buffer dest
    with ⟨r, buf2, dest2⟩
  rw [hd] at h hupd hstep
  cases r with
  | error e => simp at h
  | ok r0 =>
    cases r0 with
    | mk fi0 opt0 =>
      dsimp only at h hupd hstep ⊢
      have hok := dc_ok_inv td o s.last_pointer_shape_buffer dest fi0 opt0 buf2 dest2 hd
      obtain ⟨hacq, hcond⟩ := hok
      have hfi : fi0 = fi ∧ opt0 = some si := by
        by_cases hm : mouse_updated_bool fi0
        · rw [if_pos hm] at h
          injection h with h1
          injection h1 with hfi hopt
          exact ⟨hfi, hopt⟩
        · rw [if_neg hm] at h
          injection h with h1
          injection h1 with hfi hopt
          exact ⟨hfi, hopt⟩
      obtain ⟨hfieq, hopteq⟩ := hfi
      subst hfieq
      by_cases hg : dc_shape_gate fi0
      · rw [if_pos hg] at hcond
        obtain ⟨si2, bytes, hshape, hopt2, hbuf⟩ := hcond
        have hsi2 : si2 = si := by
          rw [hopteq] at hopt2
          injection hopt2 with hv
          exact hv.symm
        subst hsi2
        have hm : mouse_updated_bool fi0 = true := dc_gate_true_mouse fi0 hg
        rw [if_pos hm] at hupd hstep ⊢
        refine ⟨bytes, hshape, rfl, rfl, rfl, ?_, hupd⟩
        intro hlen
        unfold shared_pointer_shape_buffer rustSliceTo
        dsimp only
        have hle : fi0.PointerShapeBufferSize ≤ buf2.length := by
          rw [hbuf, writeShape_length, resize_up_length, ← hlen]
          omega
        rw [if_pos hle, hbuf, ← hlen,
          writeShape_take (resize_up s.last_pointer_shape_buffer bytes.length) bytes
            (by rw [resize_up_length]; exact le_max_right _ _)]
      · rw [if_neg hg] at hcond
        rw [hopteq] at hcond
        simp at hcond

/-- C5 witness: the fill call `oracleFill3` from the fresh state. -/
theorem shared_swap_after_fill_witness :
    ∃ bytes,
      oracleFill3.shape = .ok (⟨1, 4, 4, 16, 0, 0⟩, bytes) ∧
      (shared_capture_with_pointer_shape ⟨1, 1⟩ oracleFill3 [] initShapeState).2.1.last_pointer_shape_buffer =
        initShapeState.pointer_shape_buffer ∧
      (shared_capture_with_pointer_shape ⟨1, 1⟩ oracleFill3 [] initShapeState).2.1.last_pointer_shape_buffer_size =
        initShapeState.pointer_shape_buffer_size ∧
      (shared_capture_with_pointer_shape ⟨1, 1⟩ oracleFill3 [] initShapeState).2.1.pointer_shape_buffer_size =
        FrameInfo.PointerShapeBufferSize ⟨1, 1, 3⟩ ∧
      (bytes.length = FrameInfo.PointerShapeBufferSize ⟨1, 1, 3⟩ →
        shared_pointer_shape_buffer
            (shared_capture_with_pointer_shape ⟨1, 1⟩ oracleFill3 [] initShapeState).2.1 =
          some bytes) ∧
      shared_pointer_shape_updated
          (shared_capture_with_pointer_shape ⟨1, 1⟩ oracleFill3 [] initShapeState).2.1 =
        some (shape_differs_spec
          (shared_capture_with_pointer_shape ⟨1, 1⟩ oracleFill3 [] initShapeState).2.1) :=
  shared_swap_after_fill ⟨1, 1⟩ oracleFill3 [] initShapeState ⟨1, 1, 3⟩ ⟨1, 4, 4, 16, 0, 0⟩
    (by constructor <;> exact le_refl 0) rfl

/-- `CString::new(name)`: `None` (an `Err` in Rust, immediately
`.unwrap()`ed by the caller) when the byte string contains an interior
NUL, otherwise the NUL-terminated platform string. -/
def cstring_new (name : List UInt8) : Option (List UInt8) :=
  if name.contains 0 then none else some (name ++ [0])

/-- The observable outcome of shared-memory capturer construction:
a panic, a returned error value, or a mapped buffer of the given size. -/
inductive ConstructOutcome where
  | panicked
  | failed (e : DuplError)
  | created (bufferSize : Nat)
  deriving Repr, DecidableEq

/-- Outcomes of the OS calls made during shared-memory construction. -/
structure ShmOracle where
  texture : Except DuplError Unit
  duplDesc : OutDuplDesc
  createFileMapping : Except WinError Unit
  openFileMapping : Except WinError Unit
  mapView : Except WinError Unit
  deriving Repr

/-- `SharedCapturer::allocate` (`capturer/shared.rs`):
`create_readable_texture`, buffer size from the descriptor, then
`CString::new(name).unwrap()` — a panic when the name has an embedded
NUL — then `CreateFileMappingA` and `MapViewOfFile`, each failure mapped
to an error value tagged with that API's name (with `CloseHandle` on the
map-view failure path). -/
def shared_allocate (o : ShmOracle) (name : List UInt8) : ConstructOutcome :=
  match o.texture with
  | .error e => .failed e
  | .ok _ =>
    match cstring_new name with
    | none => .panicked
    | some _ =>
      match o.createFileMapping with
      | .error e => .failed (.Windows "CreateFileMappingA" e)
      | .ok _ =>
        match o.mapView with
        | .error e => .failed (.Windows "MapViewOfFile" e)
        | .ok _ => .created (calc_buffer_size o.duplDesc)

/-- `SharedCapturer::open_file` (`capturer/shared.rs`):
`create_readable_texture`, then `OpenFileMappingA` — whose failure the
source tags with the string `"CreateFileMappingA"` — then
`MapViewOfFile`. The name is passed through raw (no NUL scan). -/
def shared_open_file (o : ShmOracle) (_name : List UInt8) : ConstructOutcome :=
  match o.texture with
  | .error e => .failed e
  | .ok _ =>
    match o.openFileMapping with
    | .error e => .failed (.Windows "CreateFileMappingA" e)
    | .ok _ =>
      match o.mapView with
      | .error e => .failed (.Windows "MapViewOfFile" e)
      | .ok _ => .created (calc_buffer_size o.duplDesc)

/-- C9 counterexample: with every OS call succeeding, creating a shared
buffer under the name "A\x00B" (embedded NUL) panics in
`CString::new(name).unwrap()` instead of returning an error value. -/
theorem shared_allocate_nul_panics :
    shared_allocate ⟨.ok (), ⟨⟨1, 1⟩⟩, .ok (), .ok (), .ok ()⟩ [65, 0, 66] = .panicked ∧
      shared_allocate ⟨.ok (), ⟨⟨1, 1⟩⟩, .ok (), .ok (), .ok ()⟩ [65, 0, 66] ≠
        .failed (.Windows "CreateFileMappingA" ⟨0⟩) := by
  exact ⟨rfl, by decide⟩

/-- C9 (amended): construction with a name containing an embedded NUL
byte panics (via `CString::new(name).unwrap()`) rather than returning an
error, whenever texture creation succeeded; and opening a name that was
never created (so `OpenFileMappingA` fails) returns a platform error
value — not a panic — though tagged with the API string
"CreateFileMappingA" instead of the actually failing `OpenFileMappingA`. -/
theorem shm_construction_outcomes (o : ShmOracle) (name : List UInt8) (e : WinError)
    (htex : o.texture = .ok ())
    (hnul : name.contains 0 = true)
    (hopen : o.openFileMapping = .error e) :
    shared_allocate o name = .panicked ∧
      shared_open_file o name = .failed (.Windows "CreateFileMappingA" e) := by
  have hc : cstring_new name = none := by
    unfold cstring_new
    rw [if_pos hnul]
  constructor
  · unfold shared_allocate
    rw [htex, hc]
  · unfold shared_open_file
    rw [htex, hopen]

/-- C9 witness: name "\x00", `OpenFileMappingA` failing with code 5. -/
theorem shm_construction_outcomes_witness :
    shared_allocate ⟨.ok (), ⟨⟨1, 1⟩⟩, .ok (), .error ⟨5⟩, .ok ()⟩ [0] = .panicked ∧
      shared_open_file ⟨.ok (), ⟨⟨1, 1⟩⟩, .ok (), .error ⟨5⟩, .ok ()⟩ [0] =
        .failed (.Windows "CreateFileMappingA" ⟨5⟩) :=
  shm_construction_outcomes ⟨.ok (), ⟨⟨1, 1⟩⟩, .ok (), .error ⟨5⟩, .ok ()⟩ [0] ⟨5⟩
    rfl (by decide) rfl
